import Mathlib

/-!
# Verification of the freesurfer_lgi orchestrator (`run.py`)

This file is a shallow embedding, in Lean 4, of the control logic of the
BIDS-app orchestrator `run.py` (FreeSurfer longitudinal local gyrification
index wrapper), together with theorems settling the specification claims
about it.

Modelling conventions:

* Python strings are Lean `String`s; where character-level reasoning is
  needed we work on `String.data : List Char`.
* A Python `dict` (in particular `os.environ`) is modelled as an
  association list `List (String × String)` together with the operations
  `dictSet` / `dictUpdate` / `dictPop` / `lookupEnv` mirroring
  `d[k] = v`, `d.update(e)`, `d.pop(k, None)` and `d.get(k)`.
* The filesystem and the external `recon-all` binary are oracles: for each
  timepoint the record `TPBeh` says whether the two expected output files
  (`lh.pial_lgi`, `rh.pial_lgi` in the rebuilt `surf` directory) exist
  before the call, whether `run(cmd)` raises (non-zero exit status or any
  execution exception), and whether each file exists after the call.
* Raised Python exceptions are modelled as `Option String` results holding
  the exception message; `none` means normal return.
* Side effects that the claims are about (invoking the external command,
  copying a shared asset, the skip log line) are recorded in an explicit
  `Event` trace.
-/

/-! ## Character-list helpers

`afterLast c l` is Python `l.split(c)[-1]` for a single-character
separator `c`: the part of `l` after the last occurrence of `c`
(all of `l` when `c` does not occur).

`splitFirst sep l` is Python `l.split(sep)[0]` for a non-empty separator:
the part of `l` before the first occurrence of `sep`
(all of `l` when `sep` does not occur).

`substrB pat l` decides whether `pat` occurs as a contiguous substring
of `l`.
-/

def afterLast (c : Char) (l : List Char) : List Char :=
  (l.reverse.takeWhile (fun x => x != c)).reverse

def splitFirst (sep : List Char) : List Char → List Char
  | [] => []
  | x :: xs => if sep.isPrefixOf (x :: xs) then [] else x :: splitFirst sep xs

def substrB (pat l : List Char) : Bool :=
  l.tails.any (fun t => pat.isPrefixOf t)

/-! ## String-level wrappers used by the orchestrator model -/

def tpSesLabel (tp : String) : String :=
  ⟨afterLast '-' (afterLast '_' tp.data)⟩

def tpBase (e : String) : String :=
  ⟨splitFirst ".long.".data e.data⟩

/-! ## The process environment as a Python dict

`run.py` lines 13-17:

  ```python
  def run(command, env={}, ignore_errors=False):
      merged_env = os.environ
      merged_env.update(env)
      # DEBUG env triggers freesurfer to produce gigabytes of files
      merged_env.pop('DEBUG', None)
  ```

Note that `merged_env = os.environ` is an alias, not a copy: `update` and
`pop` mutate the orchestrator's own process-wide environment.
-/

abbrev EnvMap := List (String × String)

/-- `d.get(k)`: the value bound to key `k`, if any (first binding wins;
bindings produced by the operations below have distinct keys whenever the
initial map does). -/

def lookupEnv : EnvMap → String → Option String
  | [], _ => none
  | (k', v) :: r, k => if k' = k then some v else lookupEnv r k

/-- `d.pop(k, None)`: remove the binding of `k`, if any. -/

def dictPop (m : EnvMap) (k : String) : EnvMap :=
  m.filter (fun kv => kv.1 != k)

/-- `d[k] = v`: bind `k` to `v`, replacing any existing binding.

A Python dict additionally preserves insertion order; nothing in the
orchestrator observes the iteration order of `os.environ` (only key
lookups), so the model keeps the map semantics and not the ordering. -/

def dictSet (m : EnvMap) (k v : String) : EnvMap :=
  (k, v) :: dictPop m k

/-- `d.update(e)`: set every binding of `e` in `d`, in order. -/

def dictUpdate (m ov : EnvMap) : EnvMap :=
  ov.foldl (fun acc kv => dictSet acc kv.1 kv.2) m

/-- Keys of a dict are distinct (true of any Python dict). -/

def keysNodup (m : EnvMap) : Prop := (m.map Prod.fst).Nodup

instance : DecidablePred keysNodup := fun m => by unfold keysNodup; infer_instance

/-! ## The command-execution primitive `run`

Embedding of `run.py` lines 13-26.  The child's exit status is an input
(the external command is opaque); the streaming read loop has no
observable effect on the modelled state and is elided.  `procEnv` is the
process-wide `os.environ` after the call — because `merged_env` aliases
`os.environ`, it equals the environment handed to the child.
-/

structure RunCall where
  overrides : EnvMap
  returncode : Int
  ignoreErrors : Bool

structure RunOut where
  procEnv : EnvMap
  childEnv : EnvMap
  result : Option String
  deriving DecidableEq

def runErrorMsg (rc : Int) : String :=
  "Non zero return code: " ++ toString rc

/-- `run(command, env, ignore_errors)` from `run.py` lines 13-26:
`merged_env = os.environ; merged_env.update(env); merged_env.pop('DEBUG', None)`;
the child runs with `merged_env`; a non-zero exit status raises unless
`ignore_errors` is set.  `result = some msg` models a raised exception. -/

def runProc (procEnv : EnvMap) (c : RunCall) : RunOut :=
  let merged := dictPop (dictUpdate procEnv c.overrides) "DEBUG"
  { procEnv := merged
    childEnv := merged
    result :=
      if c.returncode ≠ 0 ∧ c.ignoreErrors = false then some (runErrorMsg c.returncode)
      else none }

/-! ## Python string ordering and `sorted`

Python compares strings lexicographically by code point; `sorted` is a
stable ascending sort.  A stable sort by a total preorder is a unique
function of its input, so `List.insertionSort` by the same order is
extensionally Python's `sorted`.
-/

def charListLe : List Char → List Char → Bool
  | [], _ => true
  | _ :: _, [] => false
  | a :: as, b :: bs => if a = b then charListLe as bs else decide (a < b)

def strLe (a b : String) : Prop := charListLe a.data b.data = true

instance : DecidableRel strLe := fun a b => by unfold strLe; infer_instance

/-- Python's `sorted` on strings. -/

def pySorted (l : List String) : List String := List.insertionSort strLe l

/-! ## Per-subject timepoint discovery

`run.py` lines 94-96:

  ```python
  long_subjects = glob(os.path.join(output_dir, "sub-" + subject_label + "*.long.*"))
  long_subjects = [os.path.basename(s) for s in long_subjects]
  timepoints = sorted([l.split(".long.")[0] for l in long_subjects])
  ```

Directory entries are modelled by their basenames.  The glob pattern
`sub-<label>*.long.*` matches a basename iff it starts with
`sub-<label>` and the remainder contains `.long.` (each `*` matches any,
possibly empty, character sequence of a basename).
-/

def matchesLongGlob (sub : String) (e : String) : Bool :=
  ("sub-" ++ sub).data.isPrefixOf e.data &&
    substrB ".long.".data (e.data.drop ("sub-" ++ sub).data.length)

def discoverTimepoints (sub : String) (entries : List String) : List String :=
  pySorted ((entries.filter (fun e => matchesLongGlob sub e)).map tpBase)

/-! ## The per-timepoint loop and per-subject processing

Embedding of `run.py` lines 92-151.  The filesystem and the external
`recon-all` command are oracles (`TPBeh`), keyed by the timepoint name:
`lhPre` / `rhPre` say whether `<surf_dir>/lh.pial_lgi` /
`<surf_dir>/rh.pial_lgi` exist before anything runs, `raises` whether
`run(cmd)` raises (non-zero exit status or execution exception), and
`lhPost` / `rhPost` whether each file exists when re-checked after a
successful `run`.  `surf_dir` depends only on the subject label and the
timepoint name, so keying the oracle by the timepoint is faithful for a
fixed subject.

Faithful quirk: in the source, the aggregation block (lines 144-151,
`if good_tps: ... / if bad_tps: raise ... else: ...`) is indented
*inside* the `for tp in timepoints:` loop, inside the recompute branch —
it runs at the end of every iteration that did not take the skip branch,
not once after the loop.
-/

inductive Event
  | ranCopy (asset : String)
  | skippedTP (sub tpLabel : String)
  | ranRecon (tp : String)
  deriving DecidableEq

structure TPBeh where
  lhPre : Bool
  rhPre : Bool
  raises : Bool
  lhPost : Bool
  rhPost : Bool
  deriving DecidableEq

structure LoopState where
  events : List Event
  good : List String
  bad : List String
  deriving DecidableEq

def initState : LoopState := { events := [], good := [], bad := [] }

def reconFailMsg (sub : String) (bad : List String) : String :=
  "Timpoints failed for " ++ sub ++ ": " ++ String.intercalate " " bad

def noTimepointsMsg (sub : String) : String :=
  "No timepoints found. Something went wrong: " ++ sub

/-- One iteration of the `for tp in timepoints:` body, lines 105-151. -/

def tpStep (sub : String) (beh : String → TPBeh) (st : LoopState) (tp : String) :
    LoopState × Option String :=
  let b := beh tp
  if b.lhPre && b.rhPre then
    ({ st with events := st.events ++ [Event.skippedTP sub (tpSesLabel tp)] }, none)
  else
    let st1 : LoopState := { st with events := st.events ++ [Event.ranRecon tp] }
    let st2 : LoopState :=
      if b.raises then { st1 with bad := st1.bad ++ [tpSesLabel tp] }
      else if !b.lhPost || !b.rhPost then { st1 with bad := st1.bad ++ [tpSesLabel tp] }
      else { st1 with good := st1.good ++ [tpSesLabel tp] }
    if st2.bad = [] then (st2, none)
    else (st2, some (reconFailMsg sub st2.bad))

/-- The `for tp in timepoints:` loop; a raised exception propagates out. -/

def tpLoop (sub : String) (beh : String → TPBeh) :
    LoopState → List String → LoopState × Option String
  | st, [] => (st, none)
  | st, tp :: rest =>
    match tpStep sub beh st tp with
    | (st', some e) => (st', some e)
    | (st', none) => tpLoop sub beh st' rest

/-- Lines 94-151 for one subject: discovery, the zero-timepoints check,
then the timepoint loop. -/

def subjectRun (sub : String) (entries : List String) (beh : String → TPBeh) :
    LoopState × Option String :=
  let tps := discoverTimepoints sub entries
  if tps = [] then (initState, some (noTimepointsMsg sub))
  else tpLoop sub beh initState tps

/-! ## Participant-level run (lines 72-151) -/

structure World where
  outputDir : String
  dirEntries : List String
  subjects : List String
  fsaverageHere : Bool
  lhECHere : Bool
  rhECHere : Bool
  copyExit : String → Int
  beh : String → String → TPBeh

def emptyDirMsg (outputDir : String) : String := "output dir empty " ++ outputDir

/-- One `if not os.path.exists(...): run("cp -rf ...")` block,
lines 78-90; the copy is invoked with `ignore_errors=False`. -/

def provisionAsset (w : World) (asset : String) (present : Bool) :
    List Event × Option String :=
  if present then ([], none)
  else ([Event.ranCopy asset],
    if w.copyExit asset ≠ 0 then some (runErrorMsg (w.copyExit asset)) else none)

/-- The `for subject_label in subjects_to_analyze:` loop: a raised
per-subject exception propagates immediately, skipping later subjects. -/

def subjectsFold (w : World) : List String → List Event × Option String
  | [] => ([], none)
  | s :: rest =>
    match subjectRun s w.dirEntries (w.beh s) with
    | (st, some e) => (st.events, some e)
    | (st, none) =>
        let p := subjectsFold w rest
        (st.events ++ p.1, p.2)

/-- Lines 72-151: the emptiness precondition, the three shared-asset
copies, then the subject loop. -/

def participantRun (w : World) : List Event × Option String :=
  if w.dirEntries = [] then ([], some (emptyDirMsg w.outputDir))
  else
    match provisionAsset w "fsaverage" w.fsaverageHere with
    | (e1, some m) => (e1, some m)
    | (e1, none) =>
      match provisionAsset w "lh.EC_average" w.lhECHere with
      | (e2, some m) => (e1 ++ e2, some m)
      | (e2, none) =>
        match provisionAsset w "rh.EC_average" w.rhECHere with
        | (e3, some m) => (e1 ++ e2 ++ e3, some m)
        | (e3, none) =>
          let p := subjectsFold w w.subjects
          (e1 ++ e2 ++ e3 ++ p.1, p.2)

/-! ## The rebuilt completion-check directory (C10)

`run.py` lines 105-109:

  ```python
  for tp in timepoints:
      tp_label = tp.split("_")[-1].split("-")[-1]
      surf_dir = os.path.join(output_dir,
          "sub-{sub}_ses-{ses}.long.sub-{sub}".format(sub=subject_label, ses=tp_label),
          "surf")
  ```

`longDirName` is the rebuilt directory's basename; the existence checks
inspect `output_dir/<longDirName>/surf`.  The discovered entry also lives
directly under `output_dir`, so the rebuilt path equals the discovered
directory exactly when the basenames coincide.
-/

def longDirName (sub tp : String) : String :=
  "sub-" ++ sub ++ "_ses-" ++ tpSesLabel tp ++ ".long.sub-" ++ sub

def surfDir (outputDir sub tp : String) : String :=
  outputDir ++ "/" ++ longDirName sub tp ++ "/surf"

theorem takeWhile_append_of_all {p : Char → Bool} {xs : List Char} (ys : List Char)
    (h : ∀ a ∈ xs, p a = true) : (xs ++ ys).takeWhile p = xs ++ ys.takeWhile p := by
  induction xs with
  | nil => simp
  | cons a as ih =>
      have ha : p a = true := h a (List.mem_cons_self a as)
      simp only [List.cons_append, List.takeWhile_cons, ha, if_true]
      rw [ih (fun b hb => h b (List.mem_cons_of_mem a hb))]

theorem afterLast_append_of_not_mem {c : Char} {m : List Char} (l : List Char)
    (h : c ∉ m) : afterLast c (l ++ m) = afterLast c l ++ m := by
  unfold afterLast
  have hall : ∀ a ∈ m.reverse, (a != c) = true := by
    intro a ha
    have ham : a ∈ m := List.mem_reverse.mp ha
    simp only [bne_iff_ne, ne_eq]
    exact fun hac => h (hac ▸ ham)
  rw [List.reverse_append l m, takeWhile_append_of_all l.reverse hall,
    List.reverse_append m.reverse (l.reverse.takeWhile (fun x => x != c)),
    List.reverse_reverse]

theorem afterLast_append_last (c : Char) (l : List Char) :
    afterLast c (l ++ [c]) = [] := by
  unfold afterLast
  simp

theorem not_mem_afterLast (c : Char) (l : List Char) : c ∉ afterLast c l := by
  unfold afterLast
  intro h
  have h1 : c ∈ l.reverse.takeWhile (fun x => x != c) := List.mem_reverse.mp h
  have h2 := List.mem_takeWhile_imp h1
  simp at h2

theorem afterLast_sublist (c : Char) (l : List Char) : (afterLast c l).Sublist l := by
  unfold afterLast
  have h1 : (l.reverse.takeWhile (fun x => x != c)).Sublist l.reverse :=
    List.takeWhile_sublist _
  have h2 := h1.reverse
  simpa using h2

theorem mem_of_mem_afterLast {c x : Char} {l : List Char}
    (h : x ∈ afterLast c l) : x ∈ l :=
  (afterLast_sublist c l).mem h

theorem splitFirst_append_sep {h : Char} (t : List Char) (P r : List Char)
    (hP : h ∉ P) : splitFirst (h :: t) (P ++ (h :: t) ++ r) = P := by
  induction P with
  | nil =>
      simp only [List.nil_append, splitFirst]
      have : (h :: t).isPrefixOf (h :: (t ++ r)) = true := by
        rw [List.isPrefixOf_iff_prefix]
        exact ⟨r, by simp⟩
      cases ht : t ++ r with
      | nil => simp_all [splitFirst]
      | cons y ys => simp_all [splitFirst]
  | cons a as ih =>
      have ha : a ≠ h := fun hc => hP (hc ▸ List.mem_cons_self a as)
      have hP2 : h ∉ as := fun hc => hP (List.mem_cons_of_mem a hc)
      simp only [List.cons_append, splitFirst]
      have hpre : (h :: t).isPrefixOf (a :: (as ++ (h :: t) ++ r)) = false := by
        rw [Bool.eq_false_iff]
        intro hc
        rw [List.isPrefixOf_iff_prefix] at hc
        rcases hc with ⟨s, hs⟩
        rw [List.cons_append] at hs
        have hha : h = a := List.head_eq_of_cons_eq hs
        exact ha hha.symm
      simp only [List.append_eq] at hpre ⊢
      rw [hpre]
      simp only [Bool.false_eq_true, if_false, List.cons.injEq, true_and]
      simpa using ih hP2

theorem lookupEnv_dictPop_self (m : EnvMap) (k : String) :
    lookupEnv (dictPop m k) k = none := by
  induction m with
  | nil => rfl
  | cons kv r ih =>
      unfold dictPop at ih ⊢
      rw [List.filter_cons]
      by_cases h : kv.1 = k
      · simpa [h] using ih
      · simpa [h, lookupEnv] using ih

theorem lookupEnv_dictPop_of_ne (m : EnvMap) {k k' : String} (h : k' ≠ k) :
    lookupEnv (dictPop m k) k' = lookupEnv m k' := by
  induction m with
  | nil => rfl
  | cons kv r ih =>
      unfold dictPop at ih ⊢
      rw [List.filter_cons]
      by_cases hk : kv.1 = k
      · have hne2 : k ≠ k' := fun hc => h hc.symm
        rw [show (kv.1 != k) = false by simp [hk]]
        simp only [Bool.false_eq_true, if_false, ih, lookupEnv, hk, if_neg hne2]
      · by_cases hk2 : kv.1 = k'
        · simp [hk, lookupEnv, hk2, h]
        · simp [hk, lookupEnv, hk2, ih]

theorem lookupEnv_dictSet_self (m : EnvMap) (k v : String) :
    lookupEnv (dictSet m k v) k = some v := by
  simp [dictSet, lookupEnv]

theorem lookupEnv_dictSet_of_ne (m : EnvMap) {k k' : String} (v : String)
    (h : k' ≠ k) : lookupEnv (dictSet m k v) k' = lookupEnv m k' := by
  have hne : k ≠ k' := fun hc => h hc.symm
  simp only [dictSet, lookupEnv, if_neg hne]
  exact lookupEnv_dictPop_of_ne m h

theorem lookupEnv_eq_none_of_not_mem {m : EnvMap} {k : String}
    (h : k ∉ m.map Prod.fst) : lookupEnv m k = none := by
  induction m with
  | nil => rfl
  | cons kv r ih =>
      simp only [List.map_cons, List.mem_cons, not_or] at h
      have : kv.1 ≠ k := fun hc => h.1 hc.symm
      simp [lookupEnv, this, ih h.2]

theorem lookupEnv_dictUpdate_not_mem (m : EnvMap) {ov : EnvMap} {k : String}
    (h : k ∉ ov.map Prod.fst) : lookupEnv (dictUpdate m ov) k = lookupEnv m k := by
  induction ov generalizing m with
  | nil => rfl
  | cons kv r ih =>
      simp only [List.map_cons, List.mem_cons, not_or] at h
      show lookupEnv (dictUpdate (dictSet m kv.1 kv.2) r) k = lookupEnv m k
      rw [ih (m := dictSet m kv.1 kv.2) h.2,
        lookupEnv_dictSet_of_ne m kv.2 (fun hc => h.1 hc)]

theorem lookupEnv_dictUpdate_of_mem (m : EnvMap) {ov : EnvMap} {k v : String}
    (hov : keysNodup ov) (h : lookupEnv ov k = some v) :
    lookupEnv (dictUpdate m ov) k = some v := by
  induction ov generalizing m with
  | nil => simp [lookupEnv] at h
  | cons kv r ih =>
      unfold keysNodup at hov
      simp only [List.map_cons, List.nodup_cons] at hov
      show lookupEnv (dictUpdate (dictSet m kv.1 kv.2) r) k = some v
      by_cases hk : kv.1 = k
      · simp only [lookupEnv, if_pos hk] at h
        rw [lookupEnv_dictUpdate_not_mem (dictSet m kv.1 kv.2) (hk ▸ hov.1), ← hk,
          lookupEnv_dictSet_self m kv.1 kv.2]
        exact h
      · simp only [lookupEnv, if_neg hk] at h
        exact ih (dictSet m kv.1 kv.2) hov.2 h

theorem lookupEnv_none_not_mem_keys {m : EnvMap} {k : String}
    (h : lookupEnv m k = none) : k ∉ m.map Prod.fst := by
  induction m with
  | nil => simp
  | cons a r ih =>
      obtain ⟨ka, va⟩ := a
      simp only [lookupEnv] at h
      by_cases hk : ka = k
      · rw [if_pos hk] at h
        exact absurd h (by simp)
      · rw [if_neg hk] at h
        simp only [List.map_cons, List.mem_cons, not_or]
        exact ⟨fun hc => hk hc.symm, ih h⟩

/-- C3: `run` raises an execution error carrying the child's exit code
iff the exit status is non-zero and `ignore_errors` was not set; with
`ignore_errors` set, or a zero exit status, it returns normally. -/

theorem run_raises_iff (procEnv : EnvMap) (c : RunCall) :
    ((runProc procEnv c).result = some (runErrorMsg c.returncode) ↔
      c.returncode ≠ 0 ∧ c.ignoreErrors = false) ∧
    ((runProc procEnv c).result = none ↔
      c.returncode = 0 ∨ c.ignoreErrors = true) := by
  have hres : (runProc procEnv c).result =
      if c.returncode ≠ 0 ∧ c.ignoreErrors = false then some (runErrorMsg c.returncode)
      else none := rfl
  by_cases h0 : c.returncode = 0
  · rcases Bool.eq_false_or_eq_true c.ignoreErrors with hig | hig <;>
      simp [hres, h0, hig]
  · rcases Bool.eq_false_or_eq_true c.ignoreErrors with hig | hig <;>
      simp [hres, h0, hig]

/-- C8: the environment handed to the child is the ambient process
environment merged with the caller's overrides (override wins), and
`DEBUG` is absent from it no matter where it appeared. -/

theorem child_env_merged (procEnv : EnvMap) (c : RunCall)
    (hov : keysNodup c.overrides) :
    lookupEnv (runProc procEnv c).childEnv "DEBUG" = none ∧
    (∀ k v, k ≠ "DEBUG" → lookupEnv c.overrides k = some v →
      lookupEnv (runProc procEnv c).childEnv k = some v) ∧
    (∀ k, k ≠ "DEBUG" → lookupEnv c.overrides k = none →
      lookupEnv (runProc procEnv c).childEnv k = lookupEnv procEnv k) := by
  refine ⟨lookupEnv_dictPop_self _ _, fun k v hk hkv => ?_, fun k hk hkn => ?_⟩
  · rw [show (runProc procEnv c).childEnv
        = dictPop (dictUpdate procEnv c.overrides) "DEBUG" from rfl,
      lookupEnv_dictPop_of_ne _ hk]
    exact lookupEnv_dictUpdate_of_mem procEnv hov hkv
  · rw [show (runProc procEnv c).childEnv
        = dictPop (dictUpdate procEnv c.overrides) "DEBUG" from rfl,
      lookupEnv_dictPop_of_ne _ hk]
    exact lookupEnv_dictUpdate_not_mem procEnv (lookupEnv_none_not_mem_keys hkn)

/-- Closed witness for `child_env_merged` at a concrete environment. -/

theorem child_env_merged_witness :
    keysNodup [("X", "y"), ("DEBUG", "2")] ∧
    (lookupEnv (runProc [("DEBUG", "1"), ("PATH", "p")]
        ⟨[("X", "y"), ("DEBUG", "2")], 0, false⟩).childEnv "DEBUG" = none ∧
      (∀ k v, k ≠ "DEBUG" → lookupEnv [("X", "y"), ("DEBUG", "2")] k = some v →
        lookupEnv (runProc [("DEBUG", "1"), ("PATH", "p")]
          ⟨[("X", "y"), ("DEBUG", "2")], 0, false⟩).childEnv k = some v) ∧
      (∀ k, k ≠ "DEBUG" → lookupEnv [("X", "y"), ("DEBUG", "2")] k = none →
        lookupEnv (runProc [("DEBUG", "1"), ("PATH", "p")]
          ⟨[("X", "y"), ("DEBUG", "2")], 0, false⟩).childEnv k =
          lookupEnv [("DEBUG", "1"), ("PATH", "p")] k)) :=
  ⟨by decide, child_env_merged [("DEBUG", "1"), ("PATH", "p")]
    ⟨[("X", "y"), ("DEBUG", "2")], 0, false⟩ (by decide)⟩

/-- C9: `run` mutates the process-wide environment, not a private copy:
after the call `os.environ` equals the child environment (overrides
present, `DEBUG` gone), and a later invocation that passes no overrides
still hands the earlier overrides to its child. -/

theorem run_mutates_process_env (procEnv : EnvMap) (c : RunCall)
    (hov : keysNodup c.overrides) :
    (runProc procEnv c).procEnv = (runProc procEnv c).childEnv ∧
    lookupEnv (runProc procEnv c).procEnv "DEBUG" = none ∧
    (∀ k v, k ≠ "DEBUG" → lookupEnv c.overrides k = some v →
      lookupEnv (runProc procEnv c).procEnv k = some v) ∧
    (∀ rc2 ig2 k v, k ≠ "DEBUG" → lookupEnv c.overrides k = some v →
      lookupEnv (runProc (runProc procEnv c).procEnv
        ⟨[], rc2, ig2⟩).childEnv k = some v) := by
  obtain ⟨h1, h2, _⟩ := child_env_merged procEnv c hov
  refine ⟨rfl, h1, fun k v hk hkv => h2 k v hk hkv, fun rc2 ig2 k v hk hkv => ?_⟩
  obtain ⟨_, _, h3⟩ := child_env_merged (runProc procEnv c).procEnv
    ⟨[], rc2, ig2⟩ (by simp [keysNodup])
  rw [h3 k hk rfl]
  exact h2 k v hk hkv

/-- Closed witness for `run_mutates_process_env` at a concrete environment. -/

theorem run_mutates_process_env_witness :
    keysNodup [("SUBJECTS_DIR", "/sd"), ("DEBUG", "2")] ∧
    ((runProc [("DEBUG", "1")] ⟨[("SUBJECTS_DIR", "/sd"), ("DEBUG", "2")], 1, true⟩).procEnv
        = (runProc [("DEBUG", "1")]
            ⟨[("SUBJECTS_DIR", "/sd"), ("DEBUG", "2")], 1, true⟩).childEnv ∧
      lookupEnv (runProc [("DEBUG", "1")]
        ⟨[("SUBJECTS_DIR", "/sd"), ("DEBUG", "2")], 1, true⟩).procEnv "DEBUG" = none ∧
      (∀ k v, k ≠ "DEBUG" →
        lookupEnv [("SUBJECTS_DIR", "/sd"), ("DEBUG", "2")] k = some v →
        lookupEnv (runProc [("DEBUG", "1")]
          ⟨[("SUBJECTS_DIR", "/sd"), ("DEBUG", "2")], 1, true⟩).procEnv k = some v) ∧
      (∀ rc2 ig2 k v, k ≠ "DEBUG" →
        lookupEnv [("SUBJECTS_DIR", "/sd"), ("DEBUG", "2")] k = some v →
        lookupEnv (runProc (runProc [("DEBUG", "1")]
          ⟨[("SUBJECTS_DIR", "/sd"), ("DEBUG", "2")], 1, true⟩).procEnv
            ⟨[], rc2, ig2⟩).childEnv k = some v)) :=
  ⟨by decide, run_mutates_process_env [("DEBUG", "1")]
    ⟨[("SUBJECTS_DIR", "/sd"), ("DEBUG", "2")], 1, true⟩ (by decide)⟩

theorem charListLe_total : ∀ a b : List Char, charListLe a b = true ∨ charListLe b a = true
  | [], _ => Or.inl rfl
  | _ :: _, [] => Or.inr rfl
  | a :: as, b :: bs => by
      by_cases hab : a = b
      · rcases charListLe_total as bs with h | h
        · exact Or.inl (by simp [charListLe, hab, h])
        · exact Or.inr (by simp [charListLe, hab.symm, h])
      · rcases lt_or_gt_of_ne hab with h | h
        · exact Or.inl (by simp [charListLe, hab, h])
        · exact Or.inr (by simp [charListLe, Ne.symm hab, h])

theorem charListLe_trans : ∀ a b c : List Char,
    charListLe a b = true → charListLe b c = true → charListLe a c = true
  | [], _, _, _, _ => rfl
  | _ :: _, [], _, h1, _ => by simp [charListLe] at h1
  | _ :: _, _ :: _, [], _, h2 => by simp [charListLe] at h2
  | a :: as, b :: bs, c :: cs, h1, h2 => by
      by_cases hab : a = b <;> by_cases hbc : b = c
      · subst hab; subst hbc
        simp only [charListLe, if_pos rfl] at h1 h2 ⊢
        exact charListLe_trans as bs cs h1 h2
      · subst hab
        simp only [charListLe, if_pos rfl, if_neg hbc] at h2 ⊢
        exact h2
      · subst hbc
        simp only [charListLe, if_neg hab] at h1 ⊢
        exact h1
      · simp only [charListLe, if_neg hab, if_neg hbc, decide_eq_true_eq] at h1 h2
        have hac : a < c := lt_trans h1 h2
        have hne : a ≠ c := ne_of_lt hac
        simp [charListLe, if_neg hne, hac]

/-- C4 counterexample: two distinct matching directory entries can share
one base timepoint identifier, and discovery then returns it twice — the
result is sorted but NOT distinct. -/

theorem discover_not_distinct :
    discoverTimepoints "01" ["sub-01_ses-1.long.A", "sub-01_ses-1.long.B"]
        = ["sub-01_ses-1", "sub-01_ses-1"] ∧
    ¬ (discoverTimepoints "01" ["sub-01_ses-1.long.A", "sub-01_ses-1.long.B"]).Nodup := by
  constructor
  · decide
  · decide

/-- C4 (amended): discovery returns the base identifiers (the part of
each matching entry before the first `.long.`), sorted; the result is a
permutation of one base per matching entry, so duplicates appear exactly
when two matching entries share a base. -/

theorem discover_sorted_perm (sub : String) (entries : List String) :
    (discoverTimepoints sub entries).Sorted strLe ∧
    List.Perm (discoverTimepoints sub entries)
      ((entries.filter (fun e => matchesLongGlob sub e)).map tpBase) := by
  haveI : IsTotal String strLe := ⟨fun a b => charListLe_total a.data b.data⟩
  haveI : IsTrans String strLe := ⟨fun a b c => charListLe_trans a.data b.data c.data⟩
  constructor
  · exact List.sorted_insertionSort strLe _
  · exact List.perm_insertionSort strLe _

/-! ## Step lemmas for the timepoint loop -/

theorem tpStep_skip (sub : String) (beh : String → TPBeh) (st : LoopState) (tp : String)
    (h1 : (beh tp).lhPre = true) (h2 : (beh tp).rhPre = true) :
    tpStep sub beh st tp =
      ({ st with events := st.events ++ [Event.skippedTP sub (tpSesLabel tp)] }, none) := by
  simp [tpStep, h1, h2]

theorem tpStep_good (sub : String) (beh : String → TPBeh) (st : LoopState) (tp : String)
    (h0 : ((beh tp).lhPre && (beh tp).rhPre) = false)
    (hr : (beh tp).raises = false)
    (hl : (beh tp).lhPost = true) (hh : (beh tp).rhPost = true)
    (hbad : st.bad = []) :
    tpStep sub beh st tp =
      ({ st with events := st.events ++ [Event.ranRecon tp],
                 good := st.good ++ [tpSesLabel tp] }, none) := by
  simp [tpStep, h0, hr, hl, hh, hbad]

theorem tpStep_fail (sub : String) (beh : String → TPBeh) (st : LoopState) (tp : String)
    (h0 : ((beh tp).lhPre && (beh tp).rhPre) = false)
    (hfail : (beh tp).raises = true ∨ (beh tp).lhPost = false ∨ (beh tp).rhPost = false) :
    tpStep sub beh st tp =
      ({ st with events := st.events ++ [Event.ranRecon tp],
                 bad := st.bad ++ [tpSesLabel tp] },
        some (reconFailMsg sub (st.bad ++ [tpSesLabel tp]))) := by
  have hne : st.bad ++ [tpSesLabel tp] ≠ [] := by simp
  rcases hfail with h | h | h
  · simp [tpStep, h0, h, hne]
  · by_cases hr : (beh tp).raises = true
    · simp [tpStep, h0, hr, hne]
    · rw [Bool.not_eq_true] at hr
      simp [tpStep, h0, hr, h, hne]
  · by_cases hr : (beh tp).raises = true
    · simp [tpStep, h0, hr, hne]
    · rw [Bool.not_eq_true] at hr
      simp [tpStep, h0, hr, h, hne]

theorem tpStep_events (sub : String) (beh : String → TPBeh) (st : LoopState) (tp : String) :
    (tpStep sub beh st tp).1.events = st.events ++ [Event.skippedTP sub (tpSesLabel tp)] ∨
    (tpStep sub beh st tp).1.events = st.events ++ [Event.ranRecon tp] := by
  unfold tpStep
  by_cases h0 : ((beh tp).lhPre && (beh tp).rhPre) = true
  · simp [h0]
  · rw [Bool.not_eq_true] at h0
    by_cases hr : (beh tp).raises = true
    · simp only [h0, Bool.false_eq_true, if_false, hr, if_true]
      right
      split <;> rfl
    · rw [Bool.not_eq_true] at hr
      simp only [h0, Bool.false_eq_true, if_false, hr]
      right
      split <;> split <;> rfl

theorem tpLoop_cons_none {sub : String} {beh : String → TPBeh} {st st' : LoopState}
    {tp : String} (rest : List String)
    (h : tpStep sub beh st tp = (st', none)) :
    tpLoop sub beh st (tp :: rest) = tpLoop sub beh st' rest := by
  simp [tpLoop, h]

theorem tpLoop_cons_some {sub : String} {beh : String → TPBeh} {st st' : LoopState}
    {tp : String} {e : String} (rest : List String)
    (h : tpStep sub beh st tp = (st', some e)) :
    tpLoop sub beh st (tp :: rest) = (st', some e) := by
  simp [tpLoop, h]

theorem tpLoop_no_recon (sub : String) (beh : String → TPBeh) (tp : String)
    (hpre : ((beh tp).lhPre && (beh tp).rhPre) = true) :
    ∀ (l : List String) (st : LoopState), Event.ranRecon tp ∉ st.events →
      Event.ranRecon tp ∉ (tpLoop sub beh st l).1.events := by
  intro l
  induction l with
  | nil => intro st h; exact h
  | cons t rest ih =>
      intro st h
      rcases hres : tpStep sub beh st t with ⟨st', r⟩
      have hev := tpStep_events sub beh st t
      rw [hres] at hev
      have hnotin : Event.ranRecon tp ∉ st'.events := by
        rcases hev with he | he <;> rw [he] <;> intro hc <;>
          rcases List.mem_append.mp hc with hc2 | hc2
        · exact h hc2
        · simp at hc2
        · exact h hc2
        · have htp : tp = t := by
            have : Event.ranRecon tp = Event.ranRecon t := by simpa using hc2
            injection this
          rw [htp] at hpre
          -- the recompute branch was taken, so the skip condition was false
          have hfalse : ¬ ((beh t).lhPre && (beh t).rhPre) = true := by
            intro hc3
            have := tpStep_skip sub beh st t (by
              rcases Bool.and_eq_true _ _ |>.mp hc3 with ⟨ha, hb⟩
              exact ha) (by
              rcases Bool.and_eq_true _ _ |>.mp hc3 with ⟨ha, hb⟩
              exact hb)
            rw [hres] at this
            have hev2 := congrArg (fun p => p.1.events) this
            simp only at hev2
            rw [he] at hev2
            simp at hev2
          exact hfalse hpre
      cases r with
      | some e =>
          rw [tpLoop_cons_some rest hres]
          exact hnotin
      | none =>
          rw [tpLoop_cons_none rest hres]
          exact ih st' hnotin

/-! ## Claim theorems about the orchestration -/

/-- C7: with an empty output directory the run raises the precondition
error at once — no shared-asset copy is attempted and no subject is
processed (the event trace is empty). -/

theorem empty_output_dir_aborts (w : World) (h : w.dirEntries = []) :
    participantRun w = ([], some (emptyDirMsg w.outputDir)) := by
  simp [participantRun, h]

/-- Closed witness for `empty_output_dir_aborts`. -/

theorem empty_output_dir_aborts_witness :
    participantRun
      { outputDir := "/out", dirEntries := [], subjects := ["01"],
        fsaverageHere := false, lhECHere := false, rhECHere := false,
        copyExit := fun _ => 0,
        beh := fun _ _ => ⟨false, false, false, false, false⟩ }
      = ([], some (emptyDirMsg "/out")) :=
  empty_output_dir_aborts _ rfl

/-- C6: a subject with zero discovered timepoints raises the
precondition error naming that subject, with an empty event trace — in
particular before any external reconstruction command for it. -/

theorem no_timepoints_aborts (sub : String) (entries : List String)
    (beh : String → TPBeh) (h : discoverTimepoints sub entries = []) :
    subjectRun sub entries beh = (initState, some (noTimepointsMsg sub)) := by
  simp [subjectRun, h]

/-- Closed witness for `no_timepoints_aborts`. -/

theorem no_timepoints_aborts_witness :
    discoverTimepoints "01" ["fsaverage"] = [] ∧
    subjectRun "01" ["fsaverage"] (fun _ => ⟨false, false, false, false, false⟩)
      = (initState, some (noTimepointsMsg "01")) :=
  ⟨by decide, no_timepoints_aborts "01" ["fsaverage"] _ (by decide)⟩

/-- C5: subject with exactly two timepoints, the first recomputed
successfully (zero exit, both outputs produced), the second failing: the
run raises the aggregate error naming the subject and exactly the second
timepoint's session label, and the first timepoint is recorded as good. -/

theorem two_timepoints_first_ok_second_fails (sub : String) (entries : List String)
    (beh : String → TPBeh) (t1 t2 : String)
    (hdisc : discoverTimepoints sub entries = [t1, t2])
    (h1pre : ((beh t1).lhPre && (beh t1).rhPre) = false)
    (h1run : (beh t1).raises = false)
    (h1lh : (beh t1).lhPost = true) (h1rh : (beh t1).rhPost = true)
    (h2pre : ((beh t2).lhPre && (beh t2).rhPre) = false)
    (h2fail : (beh t2).raises = true ∨ (beh t2).lhPost = false ∨ (beh t2).rhPost = false) :
    subjectRun sub entries beh =
      ({ events := [Event.ranRecon t1, Event.ranRecon t2],
         good := [tpSesLabel t1], bad := [tpSesLabel t2] },
        some (reconFailMsg sub [tpSesLabel t2])) := by
  unfold subjectRun
  rw [hdisc, if_neg (by simp)]
  rw [tpLoop_cons_none [t2] (tpStep_good sub beh initState t1 h1pre h1run h1lh h1rh rfl)]
  rw [tpLoop_cons_some [] (tpStep_fail sub beh _ t2 h2pre h2fail)]
  simp [initState]

/-- Closed witness for `two_timepoints_first_ok_second_fails`. -/

theorem two_timepoints_first_ok_second_fails_witness :
    discoverTimepoints "01" ["sub-01_ses-1.long.sub-01", "sub-01_ses-2.long.sub-01"]
        = ["sub-01_ses-1", "sub-01_ses-2"] ∧
    subjectRun "01" ["sub-01_ses-1.long.sub-01", "sub-01_ses-2.long.sub-01"]
        (fun tp => if tp = "sub-01_ses-2" then ⟨false, false, true, false, false⟩
          else ⟨false, false, false, true, true⟩)
      = ({ events := [Event.ranRecon "sub-01_ses-1", Event.ranRecon "sub-01_ses-2"],
           good := ["1"], bad := ["2"] },
          some "Timpoints failed for 01: 2") :=
  ⟨by decide,
    by
      have := two_timepoints_first_ok_second_fails "01"
        ["sub-01_ses-1.long.sub-01", "sub-01_ses-2.long.sub-01"]
        (fun tp => if tp = "sub-01_ses-2" then ⟨false, false, true, false, false⟩
          else ⟨false, false, false, true, true⟩)
        "sub-01_ses-1" "sub-01_ses-2" (by decide) (by decide) (by decide) (by decide)
        (by decide) (by decide) (Or.inl (by decide))
      exact this⟩

/-- C1 (the code as written): the aggregation block is inside the
timepoint loop, so the run raises the aggregate error at the end of the
FIRST failed timepoint's iteration; the remaining timepoint is never
attempted, contradicting continue-then-aggregate (the code's own log
line announces "Try other timepoints and raise Error later"). -/

theorem first_failure_aborts_loop :
    subjectRun "01" ["sub-01_ses-1.long.sub-01", "sub-01_ses-2.long.sub-01"]
        (fun tp => if tp = "sub-01_ses-1" then ⟨false, false, true, false, false⟩
          else ⟨false, false, false, true, true⟩)
      = ({ events := [Event.ranRecon "sub-01_ses-1"], good := [], bad := ["1"] },
         some "Timpoints failed for 01: 1") ∧
    Event.ranRecon "sub-01_ses-2" ∉
      (subjectRun "01" ["sub-01_ses-1.long.sub-01", "sub-01_ses-2.long.sub-01"]
        (fun tp => if tp = "sub-01_ses-1" then ⟨false, false, true, false, false⟩
          else ⟨false, false, false, true, true⟩)).1.events := by
  constructor
  · decide
  · decide

/-- C2 counterexample: a discovered, already-complete timepoint whose
skip is NOT logged, because an earlier timepoint failed and the
mis-indented aggregation block aborted the loop first. -/

theorem precomplete_skip_not_logged :
    "sub-01_ses-2" ∈ discoverTimepoints "01"
        ["sub-01_ses-1.long.sub-01", "sub-01_ses-2.long.sub-01"] ∧
    ((fun tp => if tp = "sub-01_ses-2" then (⟨true, true, false, false, false⟩ : TPBeh)
        else ⟨false, false, true, false, false⟩) "sub-01_ses-2").lhPre = true ∧
    ((fun tp => if tp = "sub-01_ses-2" then (⟨true, true, false, false, false⟩ : TPBeh)
        else ⟨false, false, true, false, false⟩) "sub-01_ses-2").rhPre = true ∧
    Event.skippedTP "01" "2" ∉
      (subjectRun "01" ["sub-01_ses-1.long.sub-01", "sub-01_ses-2.long.sub-01"]
        (fun tp => if tp = "sub-01_ses-2" then ⟨true, true, false, false, false⟩
          else ⟨false, false, true, false, false⟩)).1.events := by
  refine ⟨by decide, by decide, by decide, by decide⟩

/-- C2 (amended): a discovered timepoint whose two output files already
exist is never recomputed (no external command event for it anywhere in
the subject's run), and whenever the loop reaches it, its iteration only
logs the skip — it marks nothing good or bad and raises nothing. -/

theorem precomplete_tp_never_recomputed (sub : String) (entries : List String)
    (beh : String → TPBeh) (tp : String)
    (hmem : tp ∈ discoverTimepoints sub entries)
    (h1 : (beh tp).lhPre = true) (h2 : (beh tp).rhPre = true) :
    Event.ranRecon tp ∉ (subjectRun sub entries beh).1.events ∧
    ∀ st : LoopState, tpStep sub beh st tp =
      ({ st with events := st.events ++ [Event.skippedTP sub (tpSesLabel tp)] }, none) := by
  constructor
  · unfold subjectRun
    by_cases hd : discoverTimepoints sub entries = []
    · simp [hd, initState]
    · rw [if_neg hd]
      exact tpLoop_no_recon sub beh tp (by simp [h1, h2]) _ initState (by simp [initState])
  · intro st
    exact tpStep_skip sub beh st tp h1 h2

/-- Closed witness for `precomplete_tp_never_recomputed`. -/

theorem precomplete_tp_never_recomputed_witness :
    ("sub-01_ses-1" ∈ discoverTimepoints "01" ["sub-01_ses-1.long.sub-01"] ∧
      ((fun _ => (⟨true, true, false, false, false⟩ : TPBeh)) "sub-01_ses-1").lhPre = true ∧
      ((fun _ => (⟨true, true, false, false, false⟩ : TPBeh)) "sub-01_ses-1").rhPre = true) ∧
    Event.ranRecon "sub-01_ses-1" ∉
      (subjectRun "01" ["sub-01_ses-1.long.sub-01"]
        (fun _ => ⟨true, true, false, false, false⟩)).1.events ∧
    tpStep "01" (fun _ => ⟨true, true, false, false, false⟩) initState "sub-01_ses-1" =
      ({ initState with
          events := initState.events ++ [Event.skippedTP "01" (tpSesLabel "sub-01_ses-1")] },
        none) :=
  ⟨⟨by decide, by decide, by decide⟩,
    (precomplete_tp_never_recomputed "01" ["sub-01_ses-1.long.sub-01"]
      (fun _ => ⟨true, true, false, false, false⟩) "sub-01_ses-1"
      (by decide) (by decide) (by decide)).1,
    (precomplete_tp_never_recomputed "01" ["sub-01_ses-1.long.sub-01"]
      (fun _ => ⟨true, true, false, false, false⟩) "sub-01_ses-1"
      (by decide) (by decide) (by decide)).2 initState⟩

theorem splitFirst_entry (S E R : List Char)
    (hS : ('.' : Char) ∉ S) (hE : ('.' : Char) ∉ E) :
    splitFirst ".long.".data
        ("sub-".data ++ S ++ "_ses-".data ++ E ++ ".long.".data ++ R)
      = "sub-".data ++ S ++ "_ses-".data ++ E := by
  have hdot : ('.' : Char) ∉ "sub-".data ++ S ++ "_ses-".data ++ E := by
    intro hc
    rcases List.mem_append.mp hc with hc | hc
    · rcases List.mem_append.mp hc with hc | hc
      · rcases List.mem_append.mp hc with hc | hc
        · exact absurd hc (by decide)
        · exact hS hc
      · exact absurd hc (by decide)
    · exact hE hc
  rw [show (".long.".data : List Char) = '.' :: "long.".data from rfl]
  exact splitFirst_append_sep "long.".data _ R hdot

theorem sesLabel_entry (S E : List Char)
    (hE2 : ('_' : Char) ∉ E) (hE3 : ('-' : Char) ∉ E) :
    afterLast '-' (afterLast '_' ("sub-".data ++ S ++ "_ses-".data ++ E)) = E := by
  have hgroup : "sub-".data ++ S ++ "_ses-".data ++ E
      = ("sub-".data ++ S ++ ['_']) ++ ("ses-".data ++ E) := by
    rw [show ("_ses-".data : List Char) = ['_'] ++ "ses-".data from rfl]
    simp [List.append_assoc]
  have hm : ('_' : Char) ∉ "ses-".data ++ E := by
    intro hc
    rcases List.mem_append.mp hc with hc | hc
    · exact absurd hc (by decide)
    · exact hE2 hc
  rw [hgroup, afterLast_append_of_not_mem _ hm, afterLast_append_last, List.nil_append]
  rw [show ("ses-".data : List Char) = "ses".data ++ ['-'] from rfl, List.append_assoc]
  rw [show (['-'] ++ E : List Char) = ['-'] ++ E from rfl, ← List.append_assoc]
  rw [afterLast_append_of_not_mem _ hE3, afterLast_append_last, List.nil_append]

/-- C10 counterexample: for subject `01` the discovered entry
`sub-01_ses-1.long.x` matches the glob and its base `sub-01_ses-1` has
exactly the form `sub-<label>_ses-<ses>` — yet the rebuilt directory name
is `sub-01_ses-1.long.sub-01`, different from the discovered entry, so
the existence checks inspect a directory other than the discovered one. -/

theorem rebuilt_dir_ne_discovered :
    matchesLongGlob "01" "sub-01_ses-1.long.x" = true ∧
    tpBase "sub-01_ses-1.long.x" = "sub-" ++ "01" ++ "_ses-" ++ "1" ∧
    longDirName "01" (tpBase "sub-01_ses-1.long.x") = "sub-01_ses-1.long.sub-01" ∧
    longDirName "01" (tpBase "sub-01_ses-1.long.x") ≠ "sub-01_ses-1.long.x" := by
  refine ⟨by decide, by decide, by decide, by decide⟩

/-- C10 (amended): for a well-formed discovered entry
`sub-<label>_ses-<ses>.long.<rest>` (subject label without `.`, session
label without `.`, `_`, `-`), the rebuilt directory name equals the
discovered entry iff the part after `.long.` is exactly the subject base
`sub-<label>`; for any other `<rest>` the checks inspect a different
directory. -/

theorem rebuilt_dir_eq_iff (sub ses rest : String)
    (hsub : ('.' : Char) ∉ sub.data) (hses1 : ('.' : Char) ∉ ses.data)
    (hses2 : ('_' : Char) ∉ ses.data) (hses3 : ('-' : Char) ∉ ses.data) :
    longDirName sub (tpBase ("sub-" ++ sub ++ "_ses-" ++ ses ++ ".long." ++ rest))
        = "sub-" ++ sub ++ "_ses-" ++ ses ++ ".long." ++ rest
      ↔ rest = "sub-" ++ sub := by
  have hbase : tpBase ("sub-" ++ sub ++ "_ses-" ++ ses ++ ".long." ++ rest)
      = "sub-" ++ sub ++ "_ses-" ++ ses := by
    rw [String.ext_iff]
    show splitFirst ".long.".data ("sub-" ++ sub ++ "_ses-" ++ ses ++ ".long." ++ rest).data
      = ("sub-" ++ sub ++ "_ses-" ++ ses).data
    have he : ("sub-" ++ sub ++ "_ses-" ++ ses ++ ".long." ++ rest).data
        = "sub-".data ++ sub.data ++ "_ses-".data ++ ses.data ++ ".long.".data ++ rest.data := by
      simp [String.data_append]
    have hb : ("sub-" ++ sub ++ "_ses-" ++ ses).data
        = "sub-".data ++ sub.data ++ "_ses-".data ++ ses.data := by
      simp [String.data_append]
    rw [he, hb]
    exact splitFirst_entry sub.data ses.data rest.data hsub hses1
  have hlabel : tpSesLabel (tpBase ("sub-" ++ sub ++ "_ses-" ++ ses ++ ".long." ++ rest))
      = ses := by
    rw [hbase, String.ext_iff]
    show afterLast '-' (afterLast '_' ("sub-" ++ sub ++ "_ses-" ++ ses).data) = ses.data
    have hb : ("sub-" ++ sub ++ "_ses-" ++ ses).data
        = "sub-".data ++ sub.data ++ "_ses-".data ++ ses.data := by
      simp [String.data_append]
    rw [hb]
    exact sesLabel_entry sub.data ses.data hses2 hses3
  have hreb : longDirName sub (tpBase ("sub-" ++ sub ++ "_ses-" ++ ses ++ ".long." ++ rest))
      = "sub-" ++ sub ++ "_ses-" ++ ses ++ ".long.sub-" ++ sub := by
    unfold longDirName
    rw [hlabel]
  rw [hreb]
  constructor
  · intro h
    have hd := String.ext_iff.mp h
    simp only [String.data_append] at hd
    simp only [List.append_assoc, List.cons_append, List.nil_append, List.cons.injEq,
      true_and, List.append_cancel_left_eq] at hd
    rw [String.ext_iff]
    simp only [String.data_append]
    simp only [List.cons_append, List.nil_append]
    exact hd.symm
  · intro h
    rw [h, String.ext_iff]
    simp only [String.data_append]
    simp [List.append_assoc]

/-- Closed witness for `rebuilt_dir_eq_iff`: with subject `01`, session
`1`, the entry `sub-01_ses-1.long.sub-01` is inspected in place, and
`sub-01_ses-1.long.x` (counterexample above) is not. -/

theorem rebuilt_dir_eq_iff_witness :
    (('.' : Char) ∉ "01".data ∧ ('.' : Char) ∉ "1".data ∧
      ('_' : Char) ∉ "1".data ∧ ('-' : Char) ∉ "1".data) ∧
    (longDirName "01" (tpBase ("sub-" ++ "01" ++ "_ses-" ++ "1" ++ ".long." ++ "sub-01"))
        = "sub-" ++ "01" ++ "_ses-" ++ "1" ++ ".long." ++ "sub-01"
      ↔ "sub-01" = "sub-" ++ "01") :=
  ⟨⟨by decide, by decide, by decide, by decide⟩,
    rebuilt_dir_eq_iff "01" "1" "sub-01" (by decide) (by decide) (by decide) (by decide)⟩
